import Mathlib

/-!
Verification development for the go-openbmclapi-reborn mirror-cluster node.

The Go sources are embedded shallowly: Go strings and byte slices become
`List Nat` (each element a byte value), pure functions become Lean
functions, and stateful code is modelled by explicit state passing.
Machine arithmetic is `Nat`/`Int` with explicit reduction modulo 2^32
where the Go code works on `uint32`.
-/

namespace GoMirror

namespace Utils

/-- Bytes of a Go string or byte slice; each element is a byte value. -/
abbrev Bytes := List Nat

/-- 2^32, the modulus of Go `uint32` arithmetic inside crypto/sha256. -/
def w32 : Nat := 4294967296

/-- Rotate a 32-bit word right by `n` (Go `bits.RotateLeft32(x, -n)`). -/
def rotr32 (n x : Nat) : Nat :=
  ((x >>> n) ||| (x <<< (32 - n))) % w32

/-- Three-way xor. -/
def xor3 (a b c : Nat) : Nat := (a ^^^ b) ^^^ c

/-- SHA-256 choice function Ch(x,y,z) = (x AND y) XOR (NOT x AND z). -/
def shaCh (x y z : Nat) : Nat := (x &&& y) ^^^ ((x ^^^ 4294967295) &&& z)

/-- SHA-256 majority function. -/
def shaMaj (x y z : Nat) : Nat := ((x &&& y) ^^^ (x &&& z)) ^^^ (y &&& z)

/-- SHA-256 big sigma 0. -/
def bsig0 (x : Nat) : Nat := xor3 (rotr32 2 x) (rotr32 13 x) (rotr32 22 x)

/-- SHA-256 big sigma 1. -/
def bsig1 (x : Nat) : Nat := xor3 (rotr32 6 x) (rotr32 11 x) (rotr32 25 x)

/-- SHA-256 small sigma 0. -/
def ssig0 (x : Nat) : Nat := xor3 (rotr32 7 x) (rotr32 18 x) (x >>> 3)

/-- SHA-256 small sigma 1. -/
def ssig1 (x : Nat) : Nat := xor3 (rotr32 17 x) (rotr32 19 x) (x >>> 10)

/-- The 64 SHA-256 round constants (FIPS 180-4), written in decimal. -/
def shaK : List Nat :=
  [1116352408, 1899447441, 3049323471, 3921009573,
   961987163, 1508970993, 2453635748, 2870763221,
   3624381080, 310598401, 607225278, 1426881987,
   1925078388, 2162078206, 2614888103, 3248222580,
   3835390401, 4022224774, 264347078, 604807628,
   770255983, 1249150122, 1555081692, 1996064986,
   2554220882, 2821834349, 2952996808, 3210313671,
   3336571891, 3584528711, 113926993, 338241895,
   666307205, 773529912, 1294757372, 1396182291,
   1695183700, 1986661051, 2177026350, 2456956037,
   2730485921, 2820302411, 3259730800, 3345764771,
   3516065817, 3600352804, 4094571909, 275423344,
   430227734, 506948616, 659060556, 883997877,
   958139571, 1322822218, 1537002063, 1747873779,
   1955562222, 2024104815, 2227730452, 2361852424,
   2428436474, 2756734187, 3204031479, 3329325298]

/-- The initial SHA-256 hash state (FIPS 180-4), written in decimal. -/
def shaH0 : List Nat :=
  [1779033703, 3144134277, 1013904242, 2773480762,
   1359893119, 2600822924, 528734635, 1541459225]

/-- Big-endian byte expansion of `x` into `n` bytes (most significant first). -/
def beBytes : Nat → Nat → Bytes
  | 0, _ => []
  | n + 1, x => beBytes n (x / 256) ++ [x % 256]

/-- Big-endian 32-bit word from a list of bytes. -/
def word32OfBytes (bs : Bytes) : Nat := bs.foldl (fun a b => a * 256 + b) 0

/-- Split `l` into consecutive chunks of size `n`; `l.length` must divide evenly. -/
def chunkList (l : Bytes) (n : Nat) : List Bytes :=
  (List.range (l.length / n)).map (fun i => (l.drop (i * n)).take n)

/-- SHA-256 padding: append 0x80, zeros, and the 64-bit big-endian bit length. -/
def shaPad (msg : Bytes) : Bytes :=
  let len := msg.length
  let zeros := (55 + 64 - (len % 64)) % 64
  msg ++ [128] ++ List.replicate zeros 0 ++ beBytes 8 (len * 8)

/-- The 64-entry message schedule of one 64-byte block. -/
def msgSchedule (block : Bytes) : List Nat :=
  let w16 := (chunkList block 4).map word32OfBytes
  (List.range 48).foldl
    (fun w _ =>
      let t := w.length
      let x := (ssig1 (w.getD (t - 2) 0) + w.getD (t - 7) 0
                 + ssig0 (w.getD (t - 15) 0) + w.getD (t - 16) 0) % w32
      w ++ [x])
    w16

/-- One SHA-256 compression step over the eight working variables. -/
def shaRound (w : List Nat) (st : Nat × Nat × Nat × Nat × Nat × Nat × Nat × Nat)
    (i : Nat) : Nat × Nat × Nat × Nat × Nat × Nat × Nat × Nat :=
  let (a, b, c, d, e, f, g, h) := st
  let t1 := (h + bsig1 e + shaCh e f g + shaK.getD i 0 + w.getD i 0) % w32
  let t2 := (bsig0 a + shaMaj a b c) % w32
  ((t1 + t2) % w32, a, b, c, (d + t1) % w32, e, f, g)

/-- Compress one 64-byte block into the running hash state. -/
def compressBlock (hs : List Nat) (block : Bytes) : List Nat :=
  let w := msgSchedule block
  let init := (hs.getD 0 0, hs.getD 1 0, hs.getD 2 0, hs.getD 3 0,
               hs.getD 4 0, hs.getD 5 0, hs.getD 6 0, hs.getD 7 0)
  let (a, b, c, d, e, f, g, h) := (List.range 64).foldl (shaRound w) init
  [(hs.getD 0 0 + a) % w32, (hs.getD 1 0 + b) % w32,
   (hs.getD 2 0 + c) % w32, (hs.getD 3 0 + d) % w32,
   (hs.getD 4 0 + e) % w32, (hs.getD 5 0 + f) % w32,
   (hs.getD 6 0 + g) % w32, (hs.getD 7 0 + h) % w32]

/-- SHA-256 digest (32 bytes) of a byte sequence, per FIPS 180-4 and
Go `crypto/sha256`. -/
def sha256 (msg : Bytes) : Bytes :=
  let blocks := chunkList (shaPad msg) 64
  let hf := blocks.foldl compressBlock shaH0
  hf.foldr (fun x acc => beBytes 4 x ++ acc) []

/-- HMAC-SHA256 (Go `crypto/hmac` with `sha256.New`, block size 64). -/
def hmacSha256 (key msg : Bytes) : Bytes :=
  let k0 := if 64 < key.length then sha256 key else key
  let kp := k0 ++ List.replicate (64 - k0.length) 0
  let ipadKey := kp.map (fun b => b ^^^ 54)
  let opadKey := kp.map (fun b => b ^^^ 92)
  sha256 (opadKey ++ sha256 (ipadKey ++ msg))

/-- One lowercase hex digit byte (Go `encoding/hex` alphabet). -/
def hexDigit (n : Nat) : Nat := if n < 10 then 48 + n else 87 + n

/-- Lowercase hex encoding of a byte sequence (Go `hex.EncodeToString`). -/
def hexEncode (bs : Bytes) : Bytes :=
  bs.foldr (fun b acc => hexDigit (b / 16) :: hexDigit (b % 16) :: acc) []

/-- utils.SignRequest (part_005 lines 14-19): hex of HMAC-SHA256 of the
message under the secret. -/
def SignRequest (secret message : Bytes) : Bytes :=
  hexEncode (hmacSha256 secret message)

/-- Go `hmac.Equal`: constant-time comparison of two byte slices; it returns
true exactly when the slices are equal (length included). -/
def hmacEqual (a b : Bytes) : Bool := a == b

/-- utils.VerifySignature (part_005 lines 22-25): recompute the expected
signature and compare with `hmac.Equal`. -/
def VerifySignature (secret message signature : Bytes) : Bool :=
  hmacEqual (SignRequest secret message) signature

/-- The byte value of the path separator used in stored-object paths. -/
def slashB : Nat := 47

/-- Go filepath.Join of two path components (slash separator). -/
def joinPath (a b : Bytes) : Bytes := a ++ slashB :: b

/-- Go `s[:2]`: the first two bytes of a string, or a runtime panic
(`none`) when `len(s) < 2` (slice bounds out of range). -/
def goTake2 (s : Bytes) : Option Bytes :=
  if s.length < 2 then none else some (s.take 2)

end Utils

namespace Server

open Utils

/-- Names of the Go methods relevant to the interface assertion performed by
the download handler. -/
inductive MethodName where
  | read
  | readAt
  | seek
  | write
  | close
  | getRedirectURL
deriving DecidableEq

/-- The dynamic value behind the `io.ReadCloser` that `Storage.Get` hands to
the download handler: the opened `*os.File` of the local backend
(storage.go lines 105-112) or the `*redirectReadCloser` of the WebDAV
backend (webdav.go lines 99-115). -/
inductive GoReadCloser where
  | osFile (contents : Bytes)
  | redirectRC (url : Bytes)
deriving DecidableEq

/-- Method set of each dynamic type. `*os.File` (Go standard library os
package) declares Read, ReadAt, Seek, Write, Close among others;
`*redirectReadCloser` declares exactly Read and Close (webdav.go lines
107-115). No type in the repository declares a method named
GetRedirectURL. -/
def methodSet : GoReadCloser → List MethodName
  | .osFile _ => [.read, .readAt, .seek, .write, .close]
  | .redirectRC _ => [.read, .close]

/-- The Go interface assertion
`fileReader.(interface{ GetRedirectURL() string })` of server.go line 95:
it succeeds exactly when the dynamic type declares that method. -/
def assertsGetRedirectURL (r : GoReadCloser) : Bool :=
  (methodSet r).contains .getRedirectURL

/-- The redirect URL a `redirectReadCloser` carries in its field
(webdav.go line 104); what the 302 branch of the handler would serve. -/
def redirectURLField : GoReadCloser → Bytes
  | .osFile _ => []
  | .redirectRC url => url

/-- `io.Copy(w, fileReader)` (server.go line 108): reading an `*os.File`
yields its bytes and then EOF, so the copy succeeds; the Read of
`redirectReadCloser` (webdav.go lines 108-110) returns a non-EOF error, so
the copy fails. -/
def ioCopyAll : GoReadCloser → Except Unit Bytes
  | .osFile bs => .ok bs
  | .redirectRC _ => .error ()

/-- Outcome of `storage.Get(hash)` as observed by the handler: a reader, a
returned error (missing object), or a runtime panic inside the storage
backend. -/
inductive StoreGetResult where
  | ok (r : GoReadCloser)
  | err
  | crash
deriving DecidableEq

/-- The HTTP response of the download handler. `panicked` stands for a
request goroutine panic (no normal response is written). -/
inductive HTTPResponse where
  | badRequest
  | forbidden
  | notFound
  | redirect (url : Bytes)
  | okBody (body : Bytes)
  | internalError
  | panicked
deriving DecidableEq

/-- The observable outcome of one download request: the response and whether
`storage.Get` was invoked. -/
structure DownloadObs where
  response : HTTPResponse
  storeQueried : Bool
deriving DecidableEq

/-- Server.handleDownload (server.go lines 61-117). The hash is the path
after `/download/`; empty hash answers 400 before any other work; a failed
signature check answers 403 before the store is touched; otherwise the
handler calls `storage.Get(hash)`: a returned error answers 404, a reader
whose type passes the GetRedirectURL assertion answers 302, and otherwise
the body is streamed via `io.Copy` (200 on success, 500 on a copy error).
`sign` is `r.URL.Query().Get("sign")`, the empty string when the parameter
is absent. -/
def handleDownload (secret : Bytes) (storeGet : Bytes → StoreGetResult)
    (hash sign : Bytes) : DownloadObs :=
  if hash = [] then ⟨.badRequest, false⟩
  else if ! VerifySignature secret hash sign then ⟨.forbidden, false⟩
  else
    match storeGet hash with
    | .crash => ⟨.panicked, true⟩
    | .err => ⟨.notFound, true⟩
    | .ok r =>
      if assertsGetRedirectURL r then ⟨.redirect (redirectURLField r), true⟩
      else
        match ioCopyAll r with
        | .ok body => ⟨.okBody body, true⟩
        | .error _ => ⟨.internalError, true⟩

/-- Go `strings.TrimSuffix(endpoint, "/")`: drop one trailing slash when
present. -/
def trimTrailingSlash (s : Bytes) : Bytes :=
  if s.getLast? = some slashB then s.dropLast else s

/-- WebDAVStorage.Get (webdav.go lines 76-100): builds the file path
`w.path/hash[:2]/hash`, prepends a slash when missing, appends it to the
endpoint stripped of its trailing slash, and returns a `redirectReadCloser`
holding that URL (`url.Parse` keeps a well-formed URL unchanged). The
`hash[:2]` slice panics when the hash is shorter than two bytes. -/
def webdavStoreGet (davPath endpoint : Bytes) (hash : Bytes) : StoreGetResult :=
  match goTake2 hash with
  | none => .crash
  | some shard =>
    let filePath := joinPath (joinPath davPath shard) hash
    let filePath2 := if filePath.head? = some slashB then filePath else slashB :: filePath
    .ok (.redirectRC (trimTrailingSlash endpoint ++ filePath2))

end Server

namespace Storage

open Utils

/-- storage.FileInfo (storage.go lines 13-17). -/
structure FileInfo where
  hash : Bytes
  size : Int
  path : Bytes
deriving DecidableEq

/-- Outcome of a Go storage call: a value, a returned error, or a runtime
panic. -/
inductive GoResult (α : Type) where
  | ok (a : α)
  | err
  | crash
deriving DecidableEq

/-- The local filesystem under the FileStorage root (storage.go lines
53-55): `root` is the `path` field of the struct, `dirs` the directories
present, `files` the regular files as an association list from absolute
path to contents. -/
structure FSState where
  root : Bytes
  dirs : List Bytes
  files : List (Bytes × Bytes)
deriving DecidableEq

/-- Lookup of a file by absolute path. -/
def lookupFile : List (Bytes × Bytes) → Bytes → Option Bytes
  | [], _ => none
  | e :: rest, p => if e.1 = p then some e.2 else lookupFile rest p

/-- Remove every entry with the given path. -/
def eraseKey : List (Bytes × Bytes) → Bytes → List (Bytes × Bytes)
  | [], _ => []
  | e :: rest, p => if e.1 = p then eraseKey rest p else e :: eraseKey rest p

/-- `os.Create` on an existing path truncates it: the map update replaces
any previous contents under the path. -/
def setFile (files : List (Bytes × Bytes)) (p d : Bytes) : List (Bytes × Bytes) :=
  (p, d) :: eraseKey files p

/-- `os.MkdirAll`: create a directory if absent, a no-op when present. -/
def insertDir (dirs : List Bytes) (d : Bytes) : List Bytes :=
  if dirs.contains d then dirs else d :: dirs

/-- The storage path of a hash: `{root}/{hash[0:2]}/{hash}`. -/
def objPath (root hash : Bytes) : Bytes :=
  joinPath (joinPath root (hash.take 2)) hash

namespace FileStorage

/-- FileStorage.Get (storage.go lines 105-112): open
`{root}/{hash[:2]}/{hash}`; an open error (missing object) is returned to
the caller. The `hash[:2]` slice panics when the hash is shorter than two
bytes. -/
def Get (fs : FSState) (hash : Bytes) : GoResult Bytes :=
  match goTake2 hash with
  | none => .crash
  | some shard =>
    match lookupFile fs.files (joinPath (joinPath fs.root shard) hash) with
    | some data => .ok data
    | none => .err

/-- FileStorage.Put (storage.go lines 115-138): create the shard directory
`{root}/{hash[:2]}` with MkdirAll, create (truncating) the file
`{root}/{hash[:2]}/{hash}`, and copy the data into it. -/
def Put (fs : FSState) (hash data : Bytes) : GoResult FSState :=
  match goTake2 hash with
  | none => .crash
  | some shard =>
    let dir := joinPath fs.root shard
    let path := joinPath dir hash
    .ok { fs with
          dirs := insertDir fs.dirs dir
          files := setFile fs.files path data }

/-- FileStorage.Delete (storage.go lines 141-148): `os.Remove` of the object
path; removing a missing file returns an error. -/
def Delete (fs : FSState) (hash : Bytes) : GoResult FSState :=
  match goTake2 hash with
  | none => .crash
  | some shard =>
    let path := joinPath (joinPath fs.root shard) hash
    if (lookupFile fs.files path).isSome then
      .ok { fs with files := eraseKey fs.files path }
    else .err

/-- FileStorage.Exists (storage.go lines 151-161): `os.Stat` of the object
path, distinguishing present from not-exist. -/
def Exists (fs : FSState) (hash : Bytes) : GoResult Bool :=
  match goTake2 hash with
  | none => .crash
  | some shard =>
    .ok ((lookupFile fs.files (joinPath (joinPath fs.root shard) hash)).isSome)

/-- The pure membership test that Exists answers when the hash is at least
two bytes long. -/
def existsPure (fs : FSState) (hash : Bytes) : Bool :=
  (lookupFile fs.files (objPath fs.root hash)).isSome

/-- FileStorage.GetMissingFiles (storage.go lines 184-199): walk the
candidate list in order, keep every candidate whose Exists check answers
false, and propagate an Exists failure. -/
def GetMissingFiles (fs : FSState) : List FileInfo → GoResult (List FileInfo)
  | [] => .ok []
  | f :: rest =>
    match Exists fs f.hash with
    | .crash => .crash
    | .err => .err
    | .ok true => GetMissingFiles fs rest
    | .ok false =>
      match GetMissingFiles fs rest with
      | .ok ms => .ok (f :: ms)
      | .err => .err
      | .crash => .crash

/-- Go `filepath.Rel(root, path)` for a path directly under the root:
drop the root and the separator. -/
def relPathOf (root p : Bytes) : Bytes := p.drop (root.length + 1)

/-- FileStorage.GC (storage.go lines 202-239): build `validFiles`, a map
keyed by each retained entry's `Hash` field; walk every regular file under
the root; compute its root-relative path; and delete the file whenever
`validFiles[relPath]` is false. A failing `os.Remove` (modelled by
`removeFails`) is logged and the walk continues, leaving that file in
place; the walk callback then returns nil, so GC itself reports success. -/
def GC (fs : FSState) (files : List FileInfo) (removeFails : Bytes → Bool) :
    FSState :=
  let validHashes := files.map (fun f => f.hash)
  { fs with files := fs.files.filter (fun e =>
      validHashes.contains (relPathOf fs.root e.1) || removeFails e.1) }

/-- Perform Put for each listed (file, contents) pair in order, propagating
failures. -/
def PutAll : FSState → List (FileInfo × Bytes) → GoResult FSState
  | fs, [] => .ok fs
  | fs, (f, d) :: rest =>
    match Put fs f.hash d with
    | .ok fs2 => PutAll fs2 rest
    | .err => .err
    | .crash => .crash

end FileStorage

end Storage

namespace Sync

open Utils Storage

/-- sync.File (part_003 lines 27-32). -/
structure SyncFile where
  path : Bytes
  size : Int
  hash : Bytes
  mtime : Int
deriving DecidableEq

/-- The manifest endpoint answer as the sync manager observes it
(part_003 lines 144-213): 204, a 200 body that decodes into entries, a 200
body whose decompression or Avro decode fails, or a transport or HTTP
error from doRequest. -/
inductive FilesResponse where
  | noContent
  | okEntries (entries : List SyncFile)
  | badBody
  | httpErr
deriving DecidableEq

/-- SyncManager.GetFileList (part_003 lines 144-213): a 204 answer returns
the empty file list; a decoded 200 body returns its entries; a decode
failure or request failure returns an error. -/
def GetFileList : FilesResponse → GoResult (List SyncFile)
  | .noContent => .ok []
  | .okEntries es => .ok es
  | .badBody => .err
  | .httpErr => .err

/-- syncFiles (part_003 lines 394-397) and downloadMissingFiles
(part_002 lines 492-495): a max concurrency of zero or below falls back to
64. -/
def effMaxConcurrent (v : Int) : Int := if v ≤ 0 then 64 else v

/-- syncFiles (part_003 lines 399-401) and downloadMissingFiles
(part_002 lines 497-500): only a negative start interval falls back to
100 ms. -/
def effStartInterval (v : Int) : Int := if v < 0 then 100 else v

/-- config.setDefaults (config.go lines 249-251): `MaxConcurrency <= 0` is
replaced by 64 when the configuration is loaded. -/
def defaultMaxConcurrency (v : Int) : Int := if v ≤ 0 then 64 else v

/-- config.setDefaults (config.go lines 253-255): `StartIntervalMs <= 0` is
replaced by 100 when the configuration is loaded. -/
def defaultStartIntervalMs (v : Int) : Int := if v ≤ 0 then 100 else v

/-- The instant (milliseconds since the first submission) at which the
launch loop (part_003 lines 421-425, part_002 lines 519-523) starts task
`i`: the loop sleeps the start interval before every launch except the
first. -/
def submissionTime (spacing : Int) : Nat → Int
  | 0 => 0
  | i + 1 => submissionTime spacing i + spacing

/-- A snapshot of the download pool: tasks not yet launched, goroutines not
yet past the semaphore send, goroutines inside the download section,
tokens buffered in the semaphore channel, and finished goroutines. -/
structure PoolState where
  unstarted : Nat
  waiting : Nat
  holding : Nat
  tokens : Nat
  finished : Nat
deriving DecidableEq

/-- Interleaved execution steps of the download pool of syncFiles
(part_003 lines 404-457) and downloadMissingFiles (part_002 lines
502-550). The semaphore is a buffered channel of capacity `cap`: a send
(`semaphore <- struct{}{}`, executed before the download) blocks unless
fewer than `cap` tokens are buffered, and the deferred release receives one
token back — through `<-semaphore` in part_002, and in part_003 through a
`select` whose default branch fires only when no token is buffered. -/
inductive PoolStep (cap : Nat) : PoolState → PoolState → Prop where
  | launch (s : PoolState) (h : 0 < s.unstarted) :
      PoolStep cap s { s with unstarted := s.unstarted - 1, waiting := s.waiting + 1 }
  | acquire (s : PoolState) (h : 0 < s.waiting) (hc : s.tokens < cap) :
      PoolStep cap s { s with waiting := s.waiting - 1, holding := s.holding + 1,
                              tokens := s.tokens + 1 }
  | releaseRecv (s : PoolState) (h : 0 < s.holding) (ht : 0 < s.tokens) :
      PoolStep cap s { s with holding := s.holding - 1, tokens := s.tokens - 1,
                              finished := s.finished + 1 }
  | releaseSkip (s : PoolState) (h : 0 < s.holding) (ht : s.tokens = 0) :
      PoolStep cap s { s with holding := s.holding - 1, finished := s.finished + 1 }

/-- The pool before any goroutine is launched, `n` the size of the missing
set. -/
def initPool (n : Nat) : PoolState :=
  { unstarted := n, waiting := 0, holding := 0, tokens := 0, finished := 0 }

/-- Pool states reachable by some interleaving. -/
inductive PoolReachable (cap n : Nat) : PoolState → Prop where
  | init : PoolReachable cap n (initPool n)
  | step {s t : PoolState} :
      PoolReachable cap n s → PoolStep cap s t → PoolReachable cap n t

/-- downloadFileWithRetry (part_003 lines 477-496), attempts re-indexed
from 0 with `fuel` attempts remaining out of maxRetries = 3: a failed
attempt other than the last sleeps `attempt + 1` seconds and retries.
Returns whether some attempt succeeded together with the backoff sleeps
performed, in seconds. -/
def retryLoop (outcomes : Nat → Bool) : Nat → Nat → Bool × List Int
  | _, 0 => (false, [])
  | i, fuel + 1 =>
    if outcomes i then (true, [])
    else if fuel = 0 then (false, [])
    else
      let r := retryLoop outcomes (i + 1) fuel
      (r.1, ((i : Int) + 1) :: r.2)

/-- downloadFileWithRetry (part_003 lines 477-496) with maxRetries = 3. -/
def downloadFileWithRetry (outcomes : Nat → Bool) : Bool × List Int :=
  retryLoop outcomes 0 3

/-- What the main goroutine of syncFiles (part_003 lines 390-474) returns.
After the launch loop the code — despite the comment at line 459 and the
WaitGroup incremented at line 428 and decremented at line 446 — never calls
`wg.Wait()`: it immediately closes `errChan` and counts the errors buffered
so far. `fails` lists, per task, whether its download (after retries)
fails; `done` lists which tasks happened to complete before the close. The
code imposes no synchronization, so every such vector is schedulable, in
particular the all-false one. A task that fails after the close sends on
the closed channel, a runtime panic. -/
structure SyncFilesReturn where
  failedCount : Nat
  unfinishedAtReturn : Nat
  panicOnClosedChan : Bool
deriving DecidableEq

/-- The value syncFiles (part_003 lines 390-474) hands back under the
schedule described by `done`, with the tasks still running at that point
and whether a send on the closed channel follows. -/
def syncFilesMain (fails done : List Bool) : SyncFilesReturn where
  failedCount := ((fails.zip done).filter (fun p => p.1 && p.2)).length
  unfinishedAtReturn := (done.filter (fun b => ! b)).length
  panicOnClosedChan := (fails.zip done).any (fun p => p.1 && ! p.2)

/-- Outcome of one whole sync pass. -/
structure AttemptResult where
  success : Bool
  filesProcessed : Nat
  downloadsAttempted : Nat
deriving DecidableEq

/-- SyncManager.SyncFiles of part_003 (lines 337-387), a single pass: fetch
the file list; an empty list resets the error counter and succeeds at once
with no missing-file computation and no download; otherwise the missing
files (`missingOf`, the store's GetMissingFiles) are downloaded and the
pass fails when any download failed (`failedOf` the number of files whose
retries were exhausted). -/
def SyncFilesOnce (missingOf : List SyncFile → List SyncFile)
    (failedOf : List SyncFile → Nat) (resp : FilesResponse) : AttemptResult :=
  match GetFileList resp with
  | .ok files =>
    if files.isEmpty then
      { success := true, filesProcessed := 0, downloadsAttempted := 0 }
    else
      let missing := missingOf files
      { success := failedOf missing = 0
        filesProcessed := files.length
        downloadsAttempted := missing.length }
  | .err => { success := false, filesProcessed := 0, downloadsAttempted := 0 }
  | .crash => { success := false, filesProcessed := 0, downloadsAttempted := 0 }

/-- Outcome of the retrying SyncFiles of part_002. -/
structure PassResult where
  success : Bool
  attemptsUsed : Nat
  filesProcessed : Nat
  downloadsAttempted : Nat
deriving DecidableEq

/-- SyncManager.SyncFiles of part_002 (lines 421-485): up to five attempts;
attempt `i` fetches the file list (`resps i`), succeeds immediately on an
empty list, and otherwise downloads the missing files, retrying the whole
pass when the list fetch failed or some download failed. -/
def syncPassLoop (resps : Nat → FilesResponse)
    (missingOf : List SyncFile → List SyncFile)
    (failedOf : Nat → List SyncFile → Nat) : Nat → Nat → PassResult
  | i, 0 => { success := false, attemptsUsed := i, filesProcessed := 0,
              downloadsAttempted := 0 }
  | i, fuel + 1 =>
    match GetFileList (resps i) with
    | .ok files =>
      if files.isEmpty then
        { success := true, attemptsUsed := i + 1, filesProcessed := 0,
          downloadsAttempted := 0 }
      else
        let missing := missingOf files
        if 0 < failedOf i missing then
          syncPassLoop resps missingOf failedOf (i + 1) fuel
        else
          { success := true, attemptsUsed := i + 1,
            filesProcessed := files.length,
            downloadsAttempted := missing.length }
    | .err => syncPassLoop resps missingOf failedOf (i + 1) fuel
    | .crash => syncPassLoop resps missingOf failedOf (i + 1) fuel

/-- SyncManager.SyncFiles of part_002 (lines 421-485), started at attempt
0 with the five attempts of the loop. -/
def SyncFiles (resps : Nat → FilesResponse)
    (missingOf : List SyncFile → List SyncFile)
    (failedOf : Nat → List SyncFile → Nat) : PassResult :=
  syncPassLoop resps missingOf failedOf 0 5

end Sync

namespace Token

open Utils

/-- Bytes of a character list. -/
def strBytes (s : List Char) : Bytes := s.map Char.toNat

/-- The token endpoint path, `/openbmclapi-agent/token`, as formatted by
fetchToken (token.go line 89). -/
def tokenEndpointPath : Bytes :=
  strBytes ['/', 'o', 'p', 'e', 'n', 'b', 'm', 'c', 'l', 'a', 'p', 'i',
            '-', 'a', 'g', 'e', 'n', 't', '/', 't', 'o', 'k', 'e', 'n']

/-- The URL fetchToken posts the challenge response to (token.go line 89). -/
def fetchTokenURL (serverURL : Bytes) : Bytes := serverURL ++ tokenEndpointPath

/-- The URL refreshToken posts to (token.go line 159). -/
def refreshTokenURL (serverURL : Bytes) : Bytes := serverURL ++ tokenEndpointPath

/-- TokenManager.scheduleRefresh (token.go lines 141-150): the refresh
fires after half the ttl, but no sooner than 600 seconds. Go int64
division truncates toward zero, which `Int.tdiv` matches. -/
def scheduleRefreshDelay (ttl : Int) : Int :=
  let r := Int.tdiv ttl 2
  if r < 600 then 600 else r

/-- Body of a POST to the token endpoint: the challenge/signature triple of
fetchToken (token.go lines 90-94) or the refresh pair of refreshToken
(token.go lines 160-163). -/
inductive TokenRequestBody where
  | challengeSig (clusterId challenge signature : Bytes)
  | refresh (clusterId tok : Bytes)
deriving DecidableEq

/-- The broker state refreshToken reads: cluster identity and the currently
held token (token.go lines 17-24). -/
structure TokenManagerState where
  clusterID : Bytes
  clusterSecret : Bytes
  tok : Bytes
deriving DecidableEq

/-- The token endpoint answer: 201 with `{token, ttl}`, or anything else. -/
inductive TokenEndpointResponse where
  | created (tok : Bytes) (ttl : Int)
  | other
deriving DecidableEq

/-- Whether and when the next refresh is scheduled. -/
inductive NextRefresh where
  | scheduled (delaySeconds : Int)
  | dropped
deriving DecidableEq

/-- One run of TokenManager.refreshToken (token.go lines 153-203): the
observable effects given the endpoint response. -/
structure RefreshRun where
  url : Bytes
  body : TokenRequestBody
  newToken : Option Bytes
  next : NextRefresh
deriving DecidableEq

/-- TokenManager.refreshToken (token.go lines 153-203): posts
`{clusterId, token}` to the token endpoint; on a 201 answer it stores the
new token and starts `scheduleRefresh(ttl)` with the returned ttl; on any
failure it only logs and returns, scheduling nothing. -/
def refreshToken (serverURL : Bytes) (tm : TokenManagerState)
    (resp : TokenEndpointResponse) : RefreshRun where
  url := refreshTokenURL serverURL
  body := .refresh tm.clusterID tm.tok
  newToken := match resp with
    | .created t _ => some t
    | .other => none
  next := match resp with
    | .created _ ttl => .scheduled (scheduleRefreshDelay ttl)
    | .other => .dropped

end Token

namespace Cluster

/-- cluster.ErrorRetryManager (cluster.go lines 241-247): the threshold and
the running error count. -/
structure ErmState where
  maxRetries : Int
  errorCount : Int
deriving DecidableEq

/-- ErrorRetryManager.RecordError (cluster.go lines 258-271): increment the
counter; when it exceeds the threshold the process terminates
(`logger.Fatal`, which calls `log.Fatalf` and `os.Exit(1)`, part_004 lines
54-58) — `none` models that RecordError never returns. -/
def RecordError (s : ErmState) : Option ErmState :=
  let s2 : ErmState := { s with errorCount := s.errorCount + 1 }
  if s2.maxRetries < s2.errorCount then none else some s2

/-- ErrorRetryManager.ResetErrors (cluster.go lines 274-282): a positive
counter is reset to zero. -/
def ResetErrors (s : ErmState) : ErmState :=
  if 0 < s.errorCount then { s with errorCount := 0 } else s

end Cluster

namespace Examples

open Utils Storage

/-- A store root used by the concrete evaluations. -/
def rootE : Bytes := [114]

/-- First stored hash. -/
def hash1 : Bytes := [97, 97, 49]

/-- Second stored hash. -/
def hash2 : Bytes := [98, 98, 50]

/-- Third stored hash. -/
def hash3 : Bytes := [99, 99, 51]

/-- Extract the state of a successful storage call, with a fallback. -/
def orElseFS (r : GoResult FSState) (d : FSState) : FSState :=
  match r with
  | .ok s => s
  | .err => d
  | .crash => d

/-- The empty store under the example root. -/
def fsEmpty : FSState := { root := rootE, dirs := [], files := [] }

/-- The store holding hash1, hash2 and hash3, built by three Puts. -/
def fs3 : FSState :=
  orElseFS
    (FileStorage.PutAll fsEmpty
      [(⟨hash1, 0, []⟩, [1]), (⟨hash2, 0, []⟩, [2]), (⟨hash3, 0, []⟩, [3])])
    fsEmpty

/-- The retain set listing hash1 and hash2. -/
def retain12 : List FileInfo := [⟨hash1, 0, []⟩, ⟨hash2, 0, []⟩]

/-- A cluster secret used by the concrete evaluations. -/
def secretE : Bytes := [115, 101, 99, 114, 101, 116]

/-- A WebDAV base path used by the concrete evaluations. -/
def davPathE : Bytes := [47, 100, 97, 118]

/-- A WebDAV endpoint used by the concrete evaluations. -/
def endpointE : Bytes := [101, 112]

end Examples

end GoMirror

namespace GoMirror

open Storage

/-- Erasing a key leaves lookups of other keys unchanged. -/
theorem lookupFile_eraseKey (files : List (Utils.Bytes × Utils.Bytes))
    (p q : Utils.Bytes) (hqp : q ≠ p) :
    lookupFile (eraseKey files p) q = lookupFile files q := by
  induction files with
  | nil => rfl
  | cons e rest ih =>
    by_cases hep : e.1 = p
    · have heq : e.1 ≠ q := fun h => hqp (h ▸ hep)
      rw [eraseKey, if_pos hep, ih, lookupFile, if_neg heq]
    · rw [eraseKey, if_neg hep, lookupFile, lookupFile]
      by_cases heq : e.1 = q
      · rw [if_pos heq, if_pos heq]
      · rw [if_neg heq, if_neg heq, ih]

/-- Erasing a key twice equals erasing it once. -/
theorem eraseKey_idem (files : List (Utils.Bytes × Utils.Bytes))
    (p : Utils.Bytes) :
    eraseKey (eraseKey files p) p = eraseKey files p := by
  induction files with
  | nil => rfl
  | cons e rest ih =>
    by_cases hep : e.1 = p
    · rw [eraseKey, if_pos hep, ih]
    · rw [eraseKey, if_neg hep, eraseKey, if_neg hep, ih]

/-- Lookup after a map update at the same key. -/
theorem lookupFile_setFile_self (files : List (Utils.Bytes × Utils.Bytes))
    (p d : Utils.Bytes) : lookupFile (setFile files p d) p = some d := by
  rw [setFile, lookupFile, if_pos rfl]

/-- Lookup after a map update at a different key. -/
theorem lookupFile_setFile_ne (files : List (Utils.Bytes × Utils.Bytes))
    (p d q : Utils.Bytes) (hqp : q ≠ p) :
    lookupFile (setFile files p d) q = lookupFile files q := by
  rw [setFile, lookupFile, if_neg (fun h => hqp h.symm), lookupFile_eraseKey _ _ _ hqp]

/-- Updating the same key with the same contents twice equals doing it once. -/
theorem setFile_idem (files : List (Utils.Bytes × Utils.Bytes))
    (p d : Utils.Bytes) :
    setFile (setFile files p d) p d = setFile files p d := by
  show (p, d) :: eraseKey ((p, d) :: eraseKey files p) p = (p, d) :: eraseKey files p
  rw [eraseKey, if_pos rfl, eraseKey_idem]

/-- The directory just inserted is a member. -/
theorem mem_insertDir (dirs : List Utils.Bytes) (d : Utils.Bytes) :
    d ∈ insertDir dirs d := by
  rw [insertDir]
  by_cases hc : dirs.contains d
  · rw [if_pos hc]; exact List.mem_of_elem_eq_true hc
  · rw [if_neg hc]; exact List.mem_cons_self d dirs

/-- Inserting a directory twice equals inserting it once. -/
theorem insertDir_idem (dirs : List Utils.Bytes) (d : Utils.Bytes) :
    insertDir (insertDir dirs d) d = insertDir dirs d := by
  rw [insertDir]
  have : (insertDir dirs d).contains d :=
    List.elem_eq_true_of_mem (mem_insertDir dirs d)
  rw [if_pos this]

/-- Exists answers the pure membership test once the hash has at least two
bytes. -/
theorem exists_eq_existsPure (fs : FSState) (h : Utils.Bytes)
    (hlen : 2 ≤ h.length) :
    FileStorage.Exists fs h = .ok (FileStorage.existsPure fs h) := by
  rw [FileStorage.Exists, Utils.goTake2, if_neg (by omega)]
  rfl

/-- A successful Put implies the hash was sliceable and describes the new
state. -/
theorem put_ok_inv (fs fs2 : FSState) (h d : Utils.Bytes)
    (hp : FileStorage.Put fs h d = .ok fs2) :
    fs2.root = fs.root ∧
    fs2.dirs = insertDir fs.dirs (Utils.joinPath fs.root (h.take 2)) ∧
    fs2.files = setFile fs.files (objPath fs.root h) d := by
  rw [FileStorage.Put, Utils.goTake2] at hp
  by_cases hl : h.length < 2
  · rw [if_pos hl] at hp; cases hp
  · rw [if_neg hl] at hp
    cases hp
    exact ⟨rfl, rfl, rfl⟩

/-- Put preserves every object already present. -/
theorem existsPure_of_put (fs fs2 : FSState) (h d h2 : Utils.Bytes)
    (hp : FileStorage.Put fs h d = .ok fs2)
    (hex : FileStorage.existsPure fs h2 = true) :
    FileStorage.existsPure fs2 h2 = true := by
  obtain ⟨hroot, _, hfiles⟩ := put_ok_inv fs fs2 h d hp
  rw [FileStorage.existsPure, hroot, hfiles]
  by_cases hpq : objPath fs.root h2 = objPath fs.root h
  · rw [hpq, lookupFile_setFile_self]; rfl
  · rw [lookupFile_setFile_ne _ _ _ _ hpq]
    exact hex

/-- Put makes its own object present. -/
theorem existsPure_put_self (fs fs2 : FSState) (h d : Utils.Bytes)
    (hp : FileStorage.Put fs h d = .ok fs2) :
    FileStorage.existsPure fs2 h = true := by
  obtain ⟨hroot, _, hfiles⟩ := put_ok_inv fs fs2 h d hp
  rw [FileStorage.existsPure, hroot, hfiles, lookupFile_setFile_self]
  rfl

/-- PutAll preserves present objects and makes every listed object
present. -/
theorem putAll_preserves (l : List (FileInfo × Utils.Bytes)) :
    ∀ fs fs2, FileStorage.PutAll fs l = .ok fs2 →
      (∀ h2, FileStorage.existsPure fs h2 = true →
        FileStorage.existsPure fs2 h2 = true) ∧
      (∀ e ∈ l, FileStorage.existsPure fs2 e.1.hash = true) := by
  induction l with
  | nil =>
    intro fs fs2 hp
    rw [FileStorage.PutAll] at hp
    cases hp
    exact ⟨fun _ hh => hh, by intro e he; cases he⟩
  | cons e rest ih =>
    intro fs fs2 hp
    rw [FileStorage.PutAll] at hp
    cases hput : FileStorage.Put fs e.1.hash e.2 with
    | ok fsm =>
      rw [hput] at hp
      obtain ⟨pres, all⟩ := ih fsm fs2 hp
      refine ⟨fun h2 hh => pres h2 (existsPure_of_put fs fsm e.1.hash e.2 h2 hput hh), ?_⟩
      intro e2 he2
      rcases List.mem_cons.mp he2 with he2 | he2
      · rw [he2]
        exact pres _ (existsPure_put_self fs fsm e.1.hash e.2 hput)
      · exact all e2 he2
    | err => rw [hput] at hp; cases hp
    | crash => rw [hput] at hp; cases hp

/-- GetMissingFiles computes the set difference by hash when every
candidate hash has at least two bytes. -/
theorem getMissing_eq_filter (fs : FSState) (cands : List FileInfo)
    (hlen : ∀ c ∈ cands, 2 ≤ c.hash.length) :
    FileStorage.GetMissingFiles fs cands =
      .ok (cands.filter (fun c => ! FileStorage.existsPure fs c.hash)) := by
  induction cands with
  | nil => rfl
  | cons f rest ih =>
    have hf : 2 ≤ f.hash.length := hlen f (List.mem_cons_self f rest)
    have hrest : ∀ c ∈ rest, 2 ≤ c.hash.length :=
      fun c hc => hlen c (List.mem_cons_of_mem f hc)
    rw [FileStorage.GetMissingFiles, exists_eq_existsPure fs f.hash hf, ih hrest]
    cases hex : FileStorage.existsPure fs f.hash with
    | true => simp [List.filter_cons, hex]
    | false => simp [List.filter_cons, hex]

/-- Any pool step preserves the semaphore invariant: buffered tokens never
exceed the channel capacity, and every goroutine inside the download
section accounts for one buffered token. -/
theorem poolStep_invariant {cap : Nat} {s t : Sync.PoolState}
    (hs : s.tokens ≤ cap ∧ s.holding ≤ s.tokens)
    (hstep : Sync.PoolStep cap s t) :
    t.tokens ≤ cap ∧ t.holding ≤ t.tokens := by
  obtain ⟨hcap, hhold⟩ := hs
  cases hstep with
  | launch h => exact ⟨hcap, hhold⟩
  | acquire h hc =>
    refine ⟨?_, ?_⟩ <;> dsimp only <;> omega
  | releaseRecv h ht =>
    refine ⟨?_, ?_⟩ <;> dsimp only <;> omega
  | releaseSkip h ht =>
    refine ⟨?_, ?_⟩ <;> dsimp only <;> omega

/-- The semaphore invariant holds in every reachable pool state. -/
theorem poolReachable_invariant {cap n : Nat} {s : Sync.PoolState}
    (hr : Sync.PoolReachable cap n s) :
    s.tokens ≤ cap ∧ s.holding ≤ s.tokens := by
  induction hr with
  | init => exact ⟨Nat.zero_le _, Nat.le_refl _⟩
  | step hr2 hstep ih => exact poolStep_invariant ih hstep

/-- C10: RecordError increments the fault counter by one and, when the new
count exceeds the threshold, never returns (the process terminates);
hence after any RecordError that returns normally the counter is at most
the threshold. ResetErrors zeroes the counter on any success. -/
theorem claimC10_fault_counter (s s2 : Cluster.ErmState) :
    (Cluster.RecordError s = some s2 →
      s2.errorCount = s.errorCount + 1 ∧ s2.errorCount ≤ s.maxRetries) ∧
    (Cluster.RecordError s = none ↔ s.maxRetries < s.errorCount + 1) ∧
    (0 ≤ s.errorCount → (Cluster.ResetErrors s).errorCount = 0) := by
  refine ⟨?_, ?_, ?_⟩
  · intro hrec
    rw [Cluster.RecordError] at hrec
    by_cases hb : s.maxRetries < s.errorCount + 1
    · rw [if_pos hb] at hrec; cases hrec
    · rw [if_neg hb] at hrec
      cases hrec
      exact ⟨rfl, by dsimp only; omega⟩
  · rw [Cluster.RecordError]
    by_cases hb : s.maxRetries < s.errorCount + 1
    · rw [if_pos hb]; exact iff_of_true rfl hb
    · rw [if_neg hb]
      exact iff_of_false (by intro hx; cases hx) hb
  · intro hnn
    rw [Cluster.ResetErrors]
    by_cases hb : 0 < s.errorCount
    · rw [if_pos hb]
    · rw [if_neg hb]; omega

/-- C10 witness: with threshold 5 and counter 2, RecordError returns the
counter at 3, which is at most 5, and ResetErrors zeroes it. -/
theorem claimC10_fault_counter_witness :
    Cluster.ErmState.errorCount ⟨5, 3⟩ = Cluster.ErmState.errorCount ⟨5, 2⟩ + 1 ∧
    Cluster.ErmState.errorCount ⟨5, 3⟩ ≤ 5 ∧
    (Cluster.ResetErrors ⟨5, 3⟩).errorCount = 0 := by
  have h := claimC10_fault_counter ⟨5, 2⟩ ⟨5, 3⟩
  have h1 := h.1 (by decide)
  exact ⟨h1.1, h1.2, h.2.2 (by decide)⟩

/-- C9: the refresh delay is max(ttl/2, 600) seconds (so ttl = 500 gives
600); the refresh posts to the same token endpoint URL as the initial
acquisition, with the body holding clusterId and the current token instead
of the challenge/signature pair; and a created answer reschedules the
refresh with the delay computed from the newly returned ttl. -/
theorem claimC9_token_refresh (ttl ttl2 : Int) (serverURL : Utils.Bytes)
    (tm : Token.TokenManagerState) (tok2 : Utils.Bytes) :
    Token.scheduleRefreshDelay ttl = max (Int.tdiv ttl 2) 600 ∧
    Token.scheduleRefreshDelay 500 = 600 ∧
    Token.refreshTokenURL serverURL = Token.fetchTokenURL serverURL ∧
    (Token.refreshToken serverURL tm (.created tok2 ttl2)).body =
      .refresh tm.clusterID tm.tok ∧
    (Token.refreshToken serverURL tm (.created tok2 ttl2)).next =
      .scheduled (Token.scheduleRefreshDelay ttl2) := by
  refine ⟨?_, by decide, rfl, rfl, rfl⟩
  rw [Token.scheduleRefreshDelay]
  by_cases hb : Int.tdiv ttl 2 < 600
  · rw [if_pos hb, max_eq_right (le_of_lt hb)]
  · rw [if_neg hb, max_eq_left (not_lt.mp hb)]

/-- C8: a 204 manifest answer yields zero entries, and the sync pass then
succeeds at once — zero files processed, no download attempted, and no
further attempt of the whole pass. -/
theorem claimC8_no_content (resps : Nat → Sync.FilesResponse)
    (missingOf missingOf2 : List Sync.SyncFile → List Sync.SyncFile)
    (failedOf : List Sync.SyncFile → Nat)
    (failedOf2 : Nat → List Sync.SyncFile → Nat)
    (hresp : resps 0 = .noContent) :
    Sync.GetFileList .noContent = .ok [] ∧
    Sync.SyncFilesOnce missingOf failedOf .noContent =
      { success := true, filesProcessed := 0, downloadsAttempted := 0 } ∧
    Sync.SyncFiles resps missingOf2 failedOf2 =
      { success := true, attemptsUsed := 1, filesProcessed := 0,
        downloadsAttempted := 0 } := by
  refine ⟨rfl, rfl, ?_⟩
  rw [Sync.SyncFiles, Sync.syncPassLoop, hresp]
  rfl

/-- C8 witness: a schedule whose first manifest answer is 204. -/
theorem claimC8_no_content_witness :
    Sync.GetFileList .noContent = .ok [] ∧
    Sync.SyncFilesOnce id (fun _ => 0) .noContent =
      { success := true, filesProcessed := 0, downloadsAttempted := 0 } ∧
    Sync.SyncFiles (fun _ => .noContent) id (fun _ _ => 0) =
      { success := true, attemptsUsed := 1, filesProcessed := 0,
        downloadsAttempted := 0 } :=
  claimC8_no_content (fun _ => .noContent) id id (fun _ => 0) (fun _ _ => 0) rfl

/-- C6 at the failing input: the per-file retry helper does report a file
succeeding on its third attempt as succeeded (after backoff sleeps of 1 and
2 seconds) and a file failing all three attempts as failed; but syncFiles,
which never waits on its WaitGroup, returns failedCount 0 for a one-file
missing set whose download fails, with that task still unfinished at
return, and the task's later error send panics on the already-closed
channel. -/
theorem claimC6_missing_wait :
    Sync.downloadFileWithRetry (fun i => i == 2) = (true, [1, 2]) ∧
    Sync.downloadFileWithRetry (fun _ => false) = (false, [1, 2]) ∧
    Sync.syncFilesMain [true] [false] =
      { failedCount := 0, unfinishedAtReturn := 1, panicOnClosedChan := true } := by
  decide

/-- C7: in every reachable pool state the download section holds at most
the configured limit N of tasks; a non-positive configured limit falls
back to 64; a non-positive configured spacing falls back to 100 ms through
the configuration defaulting composed with the loop guard; and consecutive
task submissions are spaced by exactly the spacing. -/
theorem claimC7_concurrency_bound (N : Int) (hN : 0 < N) (n : Nat)
    (s : Sync.PoolState)
    (hreach : Sync.PoolReachable (Sync.effMaxConcurrent N).toNat n s)
    (v w : Int) (hv : v ≤ 0) (hw : w ≤ 0) (spacing : Int) (i : Nat) :
    (s.holding : Int) ≤ N ∧
    Sync.effMaxConcurrent v = 64 ∧
    Sync.effStartInterval (Sync.defaultStartIntervalMs w) = 100 ∧
    Sync.submissionTime spacing (i + 1) =
      Sync.submissionTime spacing i + spacing := by
  refine ⟨?_, ?_, ?_, rfl⟩
  · obtain ⟨hcap, hhold⟩ := poolReachable_invariant hreach
    have hcap2 : (Sync.effMaxConcurrent N).toNat = N.toNat := by
      rw [Sync.effMaxConcurrent, if_neg (by omega)]
    rw [hcap2] at hcap
    omega
  · rw [Sync.effMaxConcurrent, if_pos hv]
  · rw [Sync.defaultStartIntervalMs, if_pos hw, Sync.effStartInterval,
        if_neg (by omega)]

/-- C7 witness: limit 2, three tasks, the initial pool state, and
non-positive configured values. -/
theorem claimC7_concurrency_bound_witness :
    ((Sync.initPool 3).holding : Int) ≤ 2 ∧
    Sync.effMaxConcurrent 0 = 64 ∧
    Sync.effStartInterval (Sync.defaultStartIntervalMs (-7)) = 100 ∧
    Sync.submissionTime 100 1 = Sync.submissionTime 100 0 + 100 :=
  claimC7_concurrency_bound 2 (by decide) 3 (Sync.initPool 3)
    Sync.PoolReachable.init 0 (-7) (by decide) (by decide) 100 0

/-- C4: GetMissingFiles returns exactly the candidates whose hash is not
in the store; two calls without an intervening mutation return the same
list; and after a Put for every member of the missing list, a subsequent
GetMissingFiles returns the empty list. Candidate hashes must be at least
two bytes long, or the shard slice inside Exists panics. -/
theorem claimC4_compute_missing (fs : FSState) (cands : List FileInfo)
    (hlen : ∀ c ∈ cands, 2 ≤ c.hash.length) :
    FileStorage.GetMissingFiles fs cands =
      .ok (cands.filter (fun c => ! FileStorage.existsPure fs c.hash)) ∧
    FileStorage.GetMissingFiles fs cands = FileStorage.GetMissingFiles fs cands ∧
    ∀ (dataOf : FileInfo → Utils.Bytes) (fs2 : FSState),
      FileStorage.PutAll fs
        ((cands.filter (fun c => ! FileStorage.existsPure fs c.hash)).map
          (fun f => (f, dataOf f))) = .ok fs2 →
      FileStorage.GetMissingFiles fs2 cands = .ok [] := by
  refine ⟨getMissing_eq_filter fs cands hlen, rfl, ?_⟩
  intro dataOf fs2 hput
  obtain ⟨pres, all⟩ := putAll_preserves _ fs fs2 hput
  have hall : ∀ c ∈ cands, FileStorage.existsPure fs2 c.hash = true := by
    intro c hc
    cases hex : FileStorage.existsPure fs c.hash with
    | true => exact pres c.hash hex
    | false =>
      have hmem : c ∈ cands.filter (fun c => ! FileStorage.existsPure fs c.hash) :=
        List.mem_filter.mpr ⟨hc, by rw [hex]; rfl⟩
      have := all (c, dataOf c) (List.mem_map.mpr ⟨c, hmem, rfl⟩)
      exact this
  rw [getMissing_eq_filter fs2 cands hlen]
  have : cands.filter (fun c => ! FileStorage.existsPure fs2 c.hash) = [] := by
    rw [List.filter_eq_nil_iff]
    intro c hc
    rw [hall c hc]
    exact fun hx => by cases hx
  rw [this]

/-- C4 witness: a one-element store and two candidates, one present and one
absent. -/
theorem claimC4_compute_missing_witness :
    FileStorage.GetMissingFiles Examples.fs3
        [⟨Examples.hash1, 0, []⟩, ⟨[100, 100, 52], 0, []⟩] =
      .ok ([⟨Examples.hash1, 0, []⟩, ⟨[100, 100, 52], 0, []⟩].filter
        (fun c => ! FileStorage.existsPure Examples.fs3 c.hash)) ∧
    FileStorage.GetMissingFiles Examples.fs3
        [⟨Examples.hash1, 0, []⟩, ⟨[100, 100, 52], 0, []⟩] =
      FileStorage.GetMissingFiles Examples.fs3
        [⟨Examples.hash1, 0, []⟩, ⟨[100, 100, 52], 0, []⟩] ∧
    ∀ (dataOf : FileInfo → Utils.Bytes) (fs2 : FSState),
      FileStorage.PutAll Examples.fs3
        (([⟨Examples.hash1, 0, []⟩, ⟨[100, 100, 52], 0, []⟩].filter
          (fun c => ! FileStorage.existsPure Examples.fs3 c.hash)).map
          (fun f => (f, dataOf f))) = .ok fs2 →
      FileStorage.GetMissingFiles fs2
        [⟨Examples.hash1, 0, []⟩, ⟨[100, 100, 52], 0, []⟩] = .ok [] :=
  claimC4_compute_missing Examples.fs3
    [⟨Examples.hash1, 0, []⟩, ⟨[100, 100, 52], 0, []⟩] (by decide)

/-- C5: for the local backend, Put stores the object at
root/hash[0:2]/hash, creating the shard directory; Get after Put returns
the bytes just written; repeating the same Put leaves the state unchanged
(idempotence); and a Put of different bytes under the same hash overwrites,
so Get returns the new bytes. -/
theorem claimC5_put_get_roundtrip (fs : FSState) (h data data2 : Utils.Bytes)
    (hlen : 2 ≤ h.length) :
    ∃ fs2, FileStorage.Put fs h data = .ok fs2 ∧
      FileStorage.Get fs2 h = .ok data ∧
      lookupFile fs2.files (objPath fs.root h) = some data ∧
      Utils.joinPath fs.root (h.take 2) ∈ fs2.dirs ∧
      FileStorage.Put fs2 h data = .ok fs2 ∧
      ∀ fs3, FileStorage.Put fs2 h data2 = .ok fs3 →
        FileStorage.Get fs3 h = .ok data2 := by
  have hq : Utils.goTake2 h = some (h.take 2) := by
    rw [Utils.goTake2, if_neg (by omega)]
  simp only [objPath]
  refine ⟨{ fs with
      dirs := insertDir fs.dirs (Utils.joinPath fs.root (h.take 2)),
      files := setFile fs.files (Utils.joinPath (Utils.joinPath fs.root (h.take 2)) h)
                 data }, ?_, ?_, ?_, ?_, ?_, ?_⟩
  · rw [FileStorage.Put, hq]
  · rw [FileStorage.Get, hq]
    dsimp only
    rw [lookupFile_setFile_self]
  · dsimp only
    exact lookupFile_setFile_self fs.files _ data
  · exact mem_insertDir fs.dirs _
  · rw [FileStorage.Put, hq]
    dsimp only
    rw [insertDir_idem, setFile_idem]
  · intro fs3 hput3
    obtain ⟨hroot, hdirs, hfiles⟩ := put_ok_inv _ fs3 h data2 hput3
    simp only [objPath] at hfiles
    dsimp only at hroot hfiles
    rw [FileStorage.Get, hq, hroot, hfiles]
    dsimp only
    rw [lookupFile_setFile_self]

/-- C5 witness: a fresh hash written twice over the example store. -/
theorem claimC5_put_get_roundtrip_witness :
    ∃ fs2, FileStorage.Put Examples.fsEmpty Examples.hash1 [7] = .ok fs2 ∧
      FileStorage.Get fs2 Examples.hash1 = .ok [7] ∧
      lookupFile fs2.files (objPath Examples.fsEmpty.root Examples.hash1) = some [7] ∧
      Utils.joinPath Examples.fsEmpty.root (Examples.hash1.take 2) ∈ fs2.dirs ∧
      FileStorage.Put fs2 Examples.hash1 [7] = .ok fs2 ∧
      ∀ fs3, FileStorage.Put fs2 Examples.hash1 [8] = .ok fs3 →
        FileStorage.Get fs3 Examples.hash1 = .ok [8] :=
  claimC5_put_get_roundtrip Examples.fsEmpty Examples.hash1 [7] [8] (by decide)

/-- C3 at the failing input: the store built by putting hash1, hash2 and
hash3 holds all three; GarbageCollect retaining hash1 and hash2 then
deletes every stored object — the retained hash1 and hash2 included — so
the store is left empty instead of holding exactly those two; and with a
simulated deletion failure on hash3 the sweep still completes, leaving
hash3 in place while deleting the rest. -/
theorem claimC3_gc_deletes_retained :
    FileStorage.Exists Examples.fs3 Examples.hash1 = .ok true ∧
    FileStorage.Exists Examples.fs3 Examples.hash2 = .ok true ∧
    FileStorage.Exists Examples.fs3 Examples.hash3 = .ok true ∧
    (FileStorage.GC Examples.fs3 Examples.retain12 (fun _ => false)).files = [] ∧
    FileStorage.Exists
        (FileStorage.GC Examples.fs3 Examples.retain12 (fun _ => false))
        Examples.hash1 = .ok false ∧
    FileStorage.Exists
        (FileStorage.GC Examples.fs3 Examples.retain12
          (fun p => p == objPath Examples.rootE Examples.hash3))
        Examples.hash3 = .ok true ∧
    FileStorage.Exists
        (FileStorage.GC Examples.fs3 Examples.retain12
          (fun p => p == objPath Examples.rootE Examples.hash3))
        Examples.hash1 = .ok false := by
  decide

/-- C1: the verifier accepts a candidate signature exactly when it equals
the lowercase hex encoding of HMAC-SHA256(secret, hash); for any request
with a non-empty hash, the download handler answers 403 exactly when the
supplied signature differs from that one value, whatever the store
answers. -/
theorem claimC1_authorizer_exact (secret hash sig : Utils.Bytes)
    (storeGet : Utils.Bytes → Server.StoreGetResult) (hne : hash ≠ []) :
    (Utils.VerifySignature secret hash sig = true ↔
      sig = Utils.SignRequest secret hash) ∧
    ((Server.handleDownload secret storeGet hash sig).response =
        Server.HTTPResponse.forbidden ↔
      sig ≠ Utils.SignRequest secret hash) := by
  have hiff : Utils.VerifySignature secret hash sig = true ↔
      sig = Utils.SignRequest secret hash := by
    rw [Utils.VerifySignature, Utils.hmacEqual, beq_iff_eq]
    exact eq_comm
  refine ⟨hiff, ?_⟩
  rw [Server.handleDownload, if_neg hne]
  cases hv : Utils.VerifySignature secret hash sig with
  | false =>
    refine iff_of_true rfl ?_
    intro heq
    rw [hiff.mpr heq] at hv
    cases hv
  | true =>
    refine iff_of_false ?_ (fun hne2 => hne2 (hiff.mp hv))
    rw [Bool.not_true, if_neg Bool.false_ne_true]
    cases hsg : storeGet hash with
    | crash => simp
    | err => simp
    | ok r =>
      dsimp only
      split
      · simp
      · split <;> simp

/-- C1 witness: a concrete secret, hash and candidate signature, with a
store that reports the object missing. -/
theorem claimC1_authorizer_exact_witness :
    (Utils.VerifySignature [1] [2] [3] = true ↔
      [3] = Utils.SignRequest [1] [2]) ∧
    ((Server.handleDownload [1] (fun _ => Server.StoreGetResult.err)
        [2] [3]).response = Server.HTTPResponse.forbidden ↔
      [3] ≠ Utils.SignRequest [1] [2]) :=
  claimC1_authorizer_exact [1] [2] [3] (fun _ => Server.StoreGetResult.err)
    (by decide)

set_option maxRecDepth 1000000 in
/-- C2 at the failing input: with the WebDAV backend and a correctly signed
request, handleDownload does query the store, and the store's Get result is
the redirect signal; but no type in the repository declares the
GetRedirectURL method the handler probes for, so instead of answering 302
the handler falls into io.Copy, whose first Read errors, and answers 500.
The 400 (empty hash) and 403 (bad signature) branches behave as claimed and
never touch the store. -/
theorem claimC2_webdav_redirect_500 :
    Server.webdavStoreGet Examples.davPathE Examples.endpointE Examples.hash1 =
      Server.StoreGetResult.ok
        (Server.GoReadCloser.redirectRC
          (Examples.endpointE ++
            Utils.joinPath (Utils.joinPath Examples.davPathE
              (Examples.hash1.take 2)) Examples.hash1)) ∧
    Server.assertsGetRedirectURL
        (Server.GoReadCloser.redirectRC
          (Examples.endpointE ++
            Utils.joinPath (Utils.joinPath Examples.davPathE
              (Examples.hash1.take 2)) Examples.hash1)) = false ∧
    Server.handleDownload Examples.secretE
        (Server.webdavStoreGet Examples.davPathE Examples.endpointE)
        Examples.hash1 (Utils.SignRequest Examples.secretE Examples.hash1) =
      { response := Server.HTTPResponse.internalError, storeQueried := true } ∧
    Server.handleDownload Examples.secretE
        (Server.webdavStoreGet Examples.davPathE Examples.endpointE)
        [] (Utils.SignRequest Examples.secretE Examples.hash1) =
      { response := Server.HTTPResponse.badRequest, storeQueried := false } ∧
    Server.handleDownload Examples.secretE
        (Server.webdavStoreGet Examples.davPathE Examples.endpointE)
        Examples.hash1 [] =
      { response := Server.HTTPResponse.forbidden, storeQueried := false } := by
  refine ⟨by decide, by decide, ?_, by decide, ?_⟩
  · decide
  · decide

end GoMirror
